import Mathlib

/-!
# Verification of the reagent-table report compiler

Shallow embedding of the template-driven Excel report generator
(`export_excel.py` / `excel.py`): the text-transform rules
(`summarize_text`, the 30-token truncation, the 15-token hard wrap),
the computed hazards summary (`generate_hazards_summary`), the
pandas-style left join of the core and wide-properties tables, the
composite-image pass and the final column-sizing pass.

Strings are modelled as `List Char`; a pandas cell value is either a
string or the NaN sentinel.  Fallible steps (the PIL compositing call,
which can raise) return `Option`.
-/

namespace ReagentTable

/-- Python `str.split()` whitespace: the characters `str.split` with no
argument separates on (space, tab, newline, CR, vertical tab, form feed). -/
def pySpace (c : Char) : Bool :=
  c = ' ' || c = '\t' || c = '\n' || c = '\r' || c = Char.ofNat 11 || c = Char.ofNat 12

/-- Accumulator loop for `str.split()`: `acc` holds the current token,
reversed. Whitespace runs are collapsed and empty tokens never occur. -/
def pySplitAux : List Char → List Char → List (List Char)
  | [], acc => if acc = [] then [] else [acc.reverse]
  | c :: cs, acc =>
    if pySpace c then
      if acc = [] then pySplitAux cs [] else acc.reverse :: pySplitAux cs []
    else pySplitAux cs (c :: acc)

/-- Python `text.split()` — split on runs of whitespace, no empty tokens. -/
def pySplit (s : List Char) : List (List Char) := pySplitAux s []

/-- Python `sep.join(xs)`. -/
def joinWith (sep : List Char) : List (List Char) → List Char
  | [] => []
  | [x] => x
  | x :: y :: ys => x ++ sep ++ joinWith sep (y :: ys)

/-- The slices `words[i:i+15] for i in range(0, len(words), 15)`. -/
def chunks15 (l : List α) : List (List α) :=
  match l with
  | [] => []
  | a :: as => (a :: as).take 15 :: chunks15 ((a :: as).drop 15)
termination_by l.length
decreasing_by simp; omega

/-- The hard wrap, newline-joined 15-token space-joined chunks of `value.split()`
with `words = value.split()`. -/
def wrap15 (s : List Char) : List Char :=
  joinWith ['\n'] ((chunks15 (pySplit s)).map (joinWith [' ']))

/-- The guarded form `if len(value.split()) > 15: value = <wrap>`. -/
def condWrap15 (s : List Char) : List Char :=
  if 15 < (pySplit s).length then wrap15 s else s

/-! ## `summarize_text` (hazard summarization) -/

/-- Python `text.split(sep)` for a one-character separator: keeps empty
segments, and the empty string yields `[""]`. -/
def splitOnChar (sep : Char) : List Char → List (List Char)
  | [] => [[]]
  | c :: cs =>
    if c = sep then [] :: splitOnChar sep cs
    else
      match splitOnChar sep cs with
      | [] => [[c]]
      | t :: ts => (c :: t) :: ts

/-- Drop the given characters from the right end (`str.rstrip`). -/
def dropTrailing (p : Char → Bool) (l : List Char) : List Char :=
  (l.reverse.dropWhile p).reverse

/-- Python `str.strip(chars)`: drop the given characters from both ends. -/
def stripChars (p : Char → Bool) (l : List Char) : List Char :=
  dropTrailing p (l.dropWhile p)

/-- Python `str.strip()` with no argument (whitespace). -/
def pyStrip (l : List Char) : List Char := stripChars pySpace l

/-- `p.strip(" ;,")`. -/
def stripSemis (l : List Char) : List Char :=
  stripChars (fun c => c = ' ' || c = ';' || c = ',') l

/-- The list comprehension
`[p.strip(" ;,") for p in text.split(";") if p.strip()]`. -/
def summarizeParts (text : List Char) : List (List Char) :=
  ((splitOnChar ';' text).filter (fun p => !(pyStrip p).isEmpty)).map stripSemis

/-- `summarize_text` from `export_excel.py` (string case, default
`max_lines=5`): `"\n• " + "\n• ".join(parts[:5]) + ("\n..." if len(parts) > 5 else "")`. -/
def summarize_text (text : List Char) : List Char :=
  '\n' :: '•' :: ' ' :: joinWith ('\n' :: '•' :: [' ']) ((summarizeParts text).take 5)
    ++ (if 5 < (summarizeParts text).length then '\n' :: '.' :: '.' :: ['.'] else [])

/-- The bulleted block `"• " + "\n• ".join(parts)`; `summarize_text`
prepends a bare `"\n"` to this. -/
def bulletJoin (parts : List (List Char)) : List Char :=
  '•' :: ' ' :: joinWith ('\n' :: '•' :: [' ']) parts

/-! ## Data model: pandas values, merged rows, template columns -/

/-- A pandas cell value: a string, or the NaN sentinel a left join puts in
unmatched wide-properties columns (`pd.notna` is false exactly on `vNaN`). -/
inductive PyVal where
  | vStr : List Char → PyVal
  | vNaN : PyVal
deriving DecidableEq, Repr

/-- A merged row: field name to value, first binding wins (pandas labels
are unique). -/
abbrev Row := List (List Char × PyVal)

/-- `row.get(field, default)`. -/
def rowGet (row : Row) (f : List Char) (d : PyVal) : PyVal :=
  match List.find? (fun kv => kv.1 = f) row with
  | some kv => kv.2
  | none => d

/-- `row.get(field)` with no default (`None` when the label is absent). -/
def rowGetOpt (row : Row) (f : List Char) : Option PyVal :=
  match List.find? (fun kv => kv.1 = f) row with
  | some kv => some kv.2
  | none => none

/-- Component kinds inside a `composite` column. -/
inductive CompKind where
  | ctext
  | cimage
deriving DecidableEq, Repr

/-- A `composite` column component `{type, field, prefix?, summarize?}`;
`pfx` models the `prefix` key (default `""`). -/
structure Component where
  kind : CompKind
  field : List Char
  pfx : List Char := []
  summarize : Bool := false
deriving DecidableEq, Repr

/-- The five template column kinds. -/
inductive ColType where
  | ttext
  | timage
  | tblank
  | tcomposite
  | tcomputed
deriving DecidableEq, Repr

/-- A template column spec; absent JSON keys are the defaults. -/
structure Column where
  type : ColType
  header : List Char := []
  field : List Char := []
  summarize : Bool := false
  function : List Char := []
  components : List Component := []
  textPos : List Char := 'b' :: 'o' :: 't' :: 't' :: 'o' :: ['m']
deriving DecidableEq, Repr

/-- `"hazard" in field.lower() or "safety" in field.lower()`. -/
def hasSub (needle : List Char) : List Char → Bool
  | [] => needle.isEmpty
  | c :: cs => needle.isPrefixOf (c :: cs) || hasSub needle cs

def isHazardField (f : List Char) : Bool :=
  hasSub ('h' :: 'a' :: 'z' :: 'a' :: 'r' :: ['d']) (f.map Char.toLower) ||
  hasSub ('s' :: 'a' :: 'f' :: 'e' :: 't' :: ['y']) (f.map Char.toLower)

/-- The text stage of a composite component before the 15-token wrap:
hazard/safety fields get `summarize_text`; otherwise `summarize` truncates
past 40 tokens to the first 30 plus `"..."`. -/
def componentTransform (field : List Char) (su : Bool) (v : List Char) : List Char :=
  if isHazardField field then summarize_text v
  else if su then
    (if 40 < (pySplit v).length then
      joinWith [' '] ((pySplit v).take 30) ++ '.' :: '.' :: ['.']
    else v)
  else v

/-- Pass-1 rendering of one composite component (`None` when the component
is an image or its value is NaN): prefix plus the conditionally wrapped
transformed value. -/
def renderComponent (row : Row) (comp : Component) : Option (List Char) :=
  match comp.kind with
  | CompKind.cimage => none
  | CompKind.ctext =>
    match rowGet row comp.field (PyVal.vStr []) with
    | PyVal.vNaN => none
    | PyVal.vStr v =>
      some (comp.pfx ++ condWrap15 (componentTransform comp.field comp.summarize v))

/-- The six field names read by `generate_hazards_summary`. -/
def hazardFields : List (List Char) :=
  ["Other Safety Information".data, "Corrosivity".data, "Fire Fighting".data,
   "Exposure Control and Personal Protection".data, "First Aid Measures".data,
   "Accidental Release Measures".data]

/-- The `"<field>: <value>"` parts collected for present, non-blank hazard
fields, in the fixed field order. -/
def hazardParts (row : Row) : List (List Char) :=
  hazardFields.filterMap (fun f =>
    match rowGet row f (PyVal.vStr []) with
    | PyVal.vNaN => none
    | PyVal.vStr v =>
      if (pyStrip v).isEmpty then none else some (f ++ ':' :: ' ' :: v))

/-- `generate_hazards_summary`: newline-join the parts, re-wrapping at 15
tokens when the joined text exceeds 40 tokens. -/
def generate_hazards_summary (row : Row) : List Char :=
  if 40 < (pySplit (joinWith ['\n'] (hazardParts row))).length then
    wrap15 (joinWith ['\n'] (hazardParts row))
  else joinWith ['\n'] (hazardParts row)

def ghsName : List Char := "generate_hazards_summary".data

/-- Pass-1 rendering of one column for one merged row, as the list of cells
appended to `excel_row` (a `computed` column with an unregistered function
appends nothing). -/
def renderColumn (row : Row) (col : Column) : List PyVal :=
  match col.type with
  | ColType.tcomposite =>
    [PyVal.vStr (joinWith ['\n']
      ((col.components.filterMap (renderComponent row)).map wrap15))]
  | ColType.timage => [PyVal.vStr []]
  | ColType.tblank => [PyVal.vStr []]
  | ColType.tcomputed =>
    if col.function = ghsName then [PyVal.vStr (generate_hazards_summary row)] else []
  | ColType.ttext =>
    match rowGet row col.field (PyVal.vStr []) with
    | PyVal.vNaN => [PyVal.vNaN]
    | PyVal.vStr v =>
      [PyVal.vStr (if col.summarize then summarize_text v else condWrap15 v)]

/-- One pass-1 output row: the concatenation of each column's appended cells. -/
def renderRow (cols : List Column) (row : Row) : List PyVal :=
  match cols with
  | [] => []
  | c :: cs => renderColumn row c ++ renderRow cs row

/-! ## Relational merge (`df_core.merge(df_props, on="cid", how="left")`) -/

/-- A NaN-filled block for the wide-properties columns of an unmatched row. -/
def nanRow (cols : List (List Char)) : Row :=
  cols.map (fun c => (c, PyVal.vNaN))

/-- An input table: its non-key column names and its rows, each keyed by
the compound id `cid`. -/
structure Table where
  propCols : List (List Char)
  rows : List (Int × Row)

/-- All rows of `props` whose key matches `k`. -/
def matchesFor (props : Table) (k : Int) : List (Int × Row) :=
  props.rows.filter (fun pr => pr.1 = k)

/-- Pandas left join, left side driving: every left row emits one merged
row per matching right row, or a single NaN-padded row when none match. -/
def leftJoinRows (props : Table) : List (Int × Row) → List (Int × Row)
  | [] => []
  | kr :: rest =>
    (match matchesFor props kr.1 with
     | [] => [(kr.1, kr.2 ++ nanRow props.propCols)]
     | m :: ms => (m :: ms).map (fun pr => (kr.1, kr.2 ++ pr.2))) ++
    leftJoinRows props rest

def leftJoin (core props : Table) : List (Int × Row) :=
  leftJoinRows props core.rows

/-- Concrete core table with compound ids {1, 2, 3}. -/
def coreC1 : Table :=
  ⟨[], [(1, [("name".data, PyVal.vStr ['A'])]),
        (2, [("name".data, PyVal.vStr ['B'])]),
        (3, [("name".data, PyVal.vStr ['C'])])]⟩

/-- Concrete wide-properties table with compound ids {2, 4}. -/
def propsC1 : Table :=
  ⟨["Corrosivity".data],
   [(2, [("Corrosivity".data, PyVal.vStr ['m'])]),
    (4, [("Corrosivity".data, PyVal.vStr ['x'])])]⟩

/-- Scenario core table: one row `{cid: 1, name: "Acetone"}`. -/
def coreC8 : Table :=
  ⟨[], [(1, [("name".data, PyVal.vStr "Acetone".data)])]⟩

/-- Scenario properties table: `Corrosivity = "Mild"` for cid 1. -/
def propsC8 : Table :=
  ⟨["Corrosivity".data], [(1, [("Corrosivity".data, PyVal.vStr "Mild".data)])]⟩

/-- Scenario schema: a `text` column on `name` and a `computed` column on
`generate_hazards_summary`. -/
def colsC8 : List Column :=
  [{ type := ColType.ttext, field := "name".data },
   { type := ColType.tcomputed, function := ghsName }]

/-- A merged row whose composite text component is NaN but whose image
path is present. -/
def rowC10 : Row :=
  [("img".data, PyVal.vStr ['x']), ("t".data, PyVal.vNaN)]

/-- A merged row whose image-path field holds the NaN sentinel (the left
join's value for a missing properties cell). -/
def rowC7 : Row :=
  [("img".data, PyVal.vNaN), ("t".data, PyVal.vStr ['T'])]

/-- A composite column with one text and one image component. -/
def colC10 : Column :=
  { type := ColType.tcomposite,
    components := [⟨CompKind.ctext, "t".data, [], false⟩,
                   ⟨CompKind.cimage, "img".data, [], false⟩] }

/-! ## Composite renderer and pass 2 (`excel.py`) -/

/-- The geometry `make_composite_image` (from `excel.py`) produces: the
band is drawn onto the base image, so the output keeps the base's size. -/
structure CompositeImage where
  width : ℚ
  height : ℚ
  boxHeight : ℚ
  boxY : ℚ
  maxLineWidth : ℚ
deriving DecidableEq, Repr

/-- `make_composite_image` from `excel.py`, abstracted over the font
metrics `textH`/`textW` (per-line bounding-box height and text length) and
the base image size.  `max(draw.textlength(line, ...) for line in
text_lines)` raises `ValueError` on an empty `text_lines`, modelled as
`none`. -/
def make_composite_image (textH textW : List Char → ℚ) (baseW baseH : ℚ)
    (text_lines : List (List Char)) (pos : List Char) : Option CompositeImage :=
  let lineHeights := text_lines.map textH
  let totalTextHeight := lineHeights.sum + 4 * ((text_lines.length : ℚ) - 1)
  match text_lines.map textW with
  | [] => none
  | w :: ws =>
    let maxLineWidth := (w :: ws).foldl max w
    let boxHeight := totalTextHeight + 2 * 8
    let boxY := if pos = 't' :: 'o' :: ['p'] then 0 else baseH - boxHeight
    some { width := baseW, height := baseH, boxHeight := boxHeight,
           boxY := boxY, maxLineWidth := maxLineWidth }

/-- The layout state pass 2 may touch for one cell: the row height and
column width (openpyxl defaults are `None`) and how many images have been
anchored. -/
structure SheetDims where
  rowHeight : Option ℚ
  colWidth : Option ℚ
  imageCount : Nat
deriving DecidableEq, Repr

/-- Pass-2 text collection for a composite cell: raw value with prefix,
skipping image components and NaN values (no transforms here). -/
def pass2TextLines (row : Row) (comps : List Component) : List (List Char) :=
  comps.filterMap (fun c =>
    match c.kind with
    | CompKind.cimage => none
    | CompKind.ctext =>
      match rowGet row c.field (PyVal.vStr []) with
      | PyVal.vNaN => none
      | PyVal.vStr v => some (c.pfx ++ v))

/-- The base image path variable after the component loop: the last image
component's raw `row.get(comp["field"])` — `none` is Python's `None` when
the label is absent, and a present-but-NaN value stays NaN. -/
def pass2ImagePath (row : Row) (comps : List Component) : Option PyVal :=
  comps.foldl (fun acc c =>
    match c.kind with
    | CompKind.ctext => acc
    | CompKind.cimage => rowGetOpt row c.field) none

/-- The guard `if image_path and os.path.exists(image_path)` in the cases
where it evaluates to true without error: a nonempty string path that the
filesystem predicate `fs` accepts.  (`None` and `""` are falsy; a NaN
value never gets this far — see `pass2Cell`.) -/
def resolvableImage (fs : List Char → Bool) (row : Row) (comps : List Component) : Bool :=
  match pass2ImagePath row comps with
  | some (PyVal.vStr p) => !p.isEmpty && fs p
  | _ => false

/-- Pass 2 for one (row, column) cell: when the column is composite and its
base image resolves, composite the image, anchor it, and raise the row
height to at least `img.height * 0.75` and the column width to at least
`img.width / 6`; a `None` path, empty path or non-existing path skips the
cell untouched.  `none` models an uncaught exception: a present-but-NaN
image path is truthy, so `os.path.exists(nan)` is called and raises
`TypeError` (caught nowhere), and `make_composite_image` can raise on its
own. -/
def pass2Cell (fs : List Char → Bool) (textH textW : List Char → ℚ)
    (imgW imgH : List Char → ℚ) (row : Row) (col : Column)
    (dims : SheetDims) : Option SheetDims :=
  if col.type = ColType.tcomposite then
    match pass2ImagePath row col.components with
    | none => some dims
    | some PyVal.vNaN => none
    | some (PyVal.vStr p) =>
      if !p.isEmpty && fs p then
        match make_composite_image textH textW (imgW p) (imgH p)
            (pass2TextLines row col.components) col.textPos with
        | none => none
        | some img =>
          some { rowHeight := some (max (dims.rowHeight.getD 0) (img.height * 0.75)),
                 colWidth := some (max (dims.colWidth.getD 10) (img.width / 6)),
                 imageCount := dims.imageCount + 1 }
      else some dims
  else some dims

/-! ## Pass 3: column sizing -/

/-- `max_length`: the running maximum of `len(str(cell.value or ""))` over
the column's cells (header included), the full multi-line text. -/
def pass3MaxLength (cells : List (List Char)) : Nat :=
  cells.foldl (fun m t => max m t.length) 0

/-- The final column width
`min(max(width or 10, max_length / 1.5 + 2), 70)`. -/
def pass3ColWidth (p2 : Option ℚ) (cells : List (List Char)) : ℚ :=
  min (max (p2.getD 10) ((pass3MaxLength cells : ℚ) / 1.5 + 2)) 70

/-- The longest single line (between line breaks) over the column's cells. -/
def longestLineLen (cells : List (List Char)) : Nat :=
  cells.foldl (fun m t => max m (((splitOnChar '\n' t).map List.length).foldl max 0)) 0

/-- The claim's wording of the pass-3 width, for comparison: the larger of
the fixed minimum, the longest rendered *line* length scaled, and the
pass-2 width, capped at the fixed maximum. -/
def claimColWidth (p2 : Option ℚ) (cells : List (List Char)) : ℚ :=
  min (max (max 10 ((longestLineLen cells : ℚ) / 1.5 + 2)) (p2.getD 10)) 70

/-! ## Token-preservation lemmas for the splitter -/

theorem pySplitAux_append_sep {sep : Char} (hsep : pySpace sep = true)
    (b : List Char) :
    ∀ (a acc : List Char),
      pySplitAux (a ++ sep :: b) acc = pySplitAux a acc ++ pySplitAux b []
  | [], acc => by
    by_cases hacc : acc = [] <;> simp [pySplitAux, hsep, hacc]
  | c :: a', acc => by
    by_cases hc : pySpace c
    · by_cases hacc : acc = [] <;>
        simp [pySplitAux, hc, hacc, pySplitAux_append_sep hsep b a' []]
    · simp [pySplitAux, hc, pySplitAux_append_sep hsep b a' (c :: acc)]

theorem pySplit_append_sep {sep : Char} (hsep : pySpace sep = true)
    (a b : List Char) :
    pySplit (a ++ sep :: b) = pySplit a ++ pySplit b :=
  pySplitAux_append_sep hsep b a []

theorem pySplitAux_no_space :
    ∀ (t : List Char), (∀ c ∈ t, pySpace c = false) → ∀ acc : List Char,
      pySplitAux t acc = if acc.reverse ++ t = [] then [] else [acc.reverse ++ t]
  | [], _, acc => by
    by_cases hacc : acc = [] <;> simp [pySplitAux, hacc]
  | c :: t', h, acc => by
    have hc : pySpace c = false := h c (List.mem_cons_self c t')
    have ht' : ∀ c ∈ t', pySpace c = false := fun d hd => h d (List.mem_cons_of_mem c hd)
    rw [pySplitAux, hc]
    simp only [Bool.false_eq_true, if_false]
    rw [pySplitAux_no_space t' ht' (c :: acc)]
    simp

/-- A nonempty whitespace-free token splits to itself. -/
theorem pySplit_token (t : List Char) (hne : t ≠ [])
    (h : ∀ c ∈ t, pySpace c = false) : pySplit t = [t] := by
  unfold pySplit
  rw [pySplitAux_no_space t h []]
  simp [hne]

/-- Every token produced by the splitter is nonempty and whitespace-free. -/
theorem pySplitAux_tokens :
    ∀ (l acc : List Char), (∀ c ∈ acc, pySpace c = false) →
      ∀ t ∈ pySplitAux l acc, t ≠ [] ∧ ∀ c ∈ t, pySpace c = false
  | [], acc, hacc => by
    by_cases h : acc = []
    · simp [pySplitAux, h]
    · intro t ht
      rw [pySplitAux, if_neg h] at ht
      simp only [List.mem_singleton] at ht
      subst ht
      refine ⟨by simpa using h, ?_⟩
      intro c hc
      exact hacc c (List.mem_reverse.mp hc)
  | c :: cs, acc, hacc => by
    intro t ht
    rw [pySplitAux] at ht
    by_cases hc : pySpace c
    · rw [if_pos hc] at ht
      by_cases h : acc = []
      · rw [if_pos h] at ht
        exact pySplitAux_tokens cs [] (by simp) t ht
      · rw [if_neg h] at ht
        rcases List.mem_cons.mp ht with h1 | h1
        · subst h1
          refine ⟨by simpa using h, fun d hd => hacc d (List.mem_reverse.mp hd)⟩
        · exact pySplitAux_tokens cs [] (by simp) t h1
    · rw [if_neg hc] at ht
      refine pySplitAux_tokens cs (c :: acc) ?_ t ht
      intro d hd
      rcases List.mem_cons.mp hd with h1 | h1
      · subst h1; simpa using hc
      · exact hacc d h1

theorem pySplit_tokens (s : List Char) :
    ∀ t ∈ pySplit s, t ≠ [] ∧ ∀ c ∈ t, pySpace c = false :=
  pySplitAux_tokens s [] (by simp)

/-- Splitting distributes over joining with a single whitespace separator. -/
theorem pySplit_joinWith {sep : Char} (hsep : pySpace sep = true) :
    ∀ ls : List (List Char),
      pySplit (joinWith [sep] ls) = (ls.map pySplit).flatten
  | [] => by simp [joinWith, pySplit, pySplitAux]
  | [x] => by simp [joinWith]
  | x :: y :: ys => by
    have : x ++ [sep] ++ joinWith [sep] (y :: ys) =
        x ++ sep :: joinWith [sep] (y :: ys) := by simp
    rw [joinWith, this, pySplit_append_sep hsep, pySplit_joinWith hsep (y :: ys)]
    simp

/-- Re-splitting a space-join of intact tokens recovers the tokens. -/
theorem pySplit_joinWith_tokens {sep : Char} (hsep : pySpace sep = true)
    (ts : List (List Char))
    (h : ∀ t ∈ ts, t ≠ [] ∧ ∀ c ∈ t, pySpace c = false) :
    pySplit (joinWith [sep] ts) = ts := by
  rw [pySplit_joinWith hsep]
  induction ts with
  | nil => simp
  | cons t ts ih =>
    have ht := h t (List.mem_cons_self t ts)
    simp only [List.map_cons, List.flatten_cons]
    rw [pySplit_token t ht.1 ht.2, ih (fun u hu => h u (List.mem_cons_of_mem t hu))]
    simp

theorem chunks15_join : ∀ l : List α, (chunks15 l).flatten = l
  | [] => by simp [chunks15]
  | a :: as => by
    rw [chunks15]
    simp only [List.flatten_cons]
    rw [chunks15_join ((a :: as).drop 15)]
    exact List.take_append_drop 15 (a :: as)
termination_by l => l.length
decreasing_by simp; omega

/-- Tokens of the wrapped text are exactly the tokens of the input. -/
theorem pySplit_wrap15 (s : List Char) : pySplit (wrap15 s) = pySplit s := by
  unfold wrap15
  rw [pySplit_joinWith (by decide)]
  have hchunk : ∀ c ∈ chunks15 (pySplit s), pySplit (joinWith [' '] c) = c := by
    intro c hc
    refine pySplit_joinWith_tokens (by decide) c ?_
    intro t ht
    have : t ∈ (chunks15 (pySplit s)).flatten := List.mem_flatten.mpr ⟨c, hc, ht⟩
    rw [chunks15_join] at this
    exact pySplit_tokens s t this
  rw [List.map_map]
  calc ((chunks15 (pySplit s)).map (pySplit ∘ joinWith [' '])).flatten
      = ((chunks15 (pySplit s)).map id).flatten := by
        refine congrArg List.flatten (List.map_congr_left ?_)
        intro c hc
        exact hchunk c hc
    _ = pySplit s := by rw [List.map_id, chunks15_join]


/-! ## `splitOnChar` lemmas -/

theorem splitOnChar_ne_nil (sep : Char) : ∀ l : List Char, splitOnChar sep l ≠ []
  | [] => by simp [splitOnChar]
  | c :: cs => by
    rw [splitOnChar]
    by_cases hc : c = sep
    · simp [hc]
    · rw [if_neg hc]
      cases h : splitOnChar sep cs <;> simp

theorem splitOnChar_not_mem {sep : Char} :
    ∀ {a : List Char}, sep ∉ a → splitOnChar sep a = [a]
  | [], _ => by simp [splitOnChar]
  | c :: cs, h => by
    have hc : ¬(c = sep) := fun e => h (by rw [e]; exact List.mem_cons_self sep cs)
    have hcs : sep ∉ cs := fun e => h (List.mem_cons_of_mem c e)
    rw [splitOnChar, if_neg hc, splitOnChar_not_mem hcs]

theorem splitOnChar_append {sep : Char} :
    ∀ {a : List Char}, sep ∉ a → ∀ b : List Char,
      splitOnChar sep (a ++ sep :: b) = a :: splitOnChar sep b
  | [], _, b => by simp [splitOnChar]
  | c :: a', h, b => by
    have hc : ¬(c = sep) := fun e => h (by rw [e]; exact List.mem_cons_self sep a')
    have ha' : sep ∉ a' := fun e => h (List.mem_cons_of_mem c e)
    rw [List.cons_append, splitOnChar, if_neg hc, splitOnChar_append ha' b]

/-- Splitting the bulleted block on line breaks recovers one bulleted line
per part, provided the parts themselves are line-break free. -/
theorem splitOnChar_bulletJoin :
    ∀ parts : List (List Char), (∀ p ∈ parts, '\n' ∉ p) → parts ≠ [] →
      splitOnChar '\n' (bulletJoin parts) = parts.map (fun p => '•' :: ' ' :: p)
  | [], _, hne => absurd rfl hne
  | [p], h, _ => by
    have hp : '\n' ∉ '•' :: ' ' :: p := by
      intro hm
      rcases List.mem_cons.mp hm with h1 | h1
      · exact absurd h1.symm (by decide)
      · rcases List.mem_cons.mp h1 with h2 | h2
        · exact absurd h2.symm (by decide)
        · exact h p (List.mem_singleton.mpr rfl) h2
    rw [bulletJoin, joinWith, splitOnChar_not_mem hp]
    simp
  | p :: q :: qs, h, _ => by
    have hp : '\n' ∉ '•' :: ' ' :: p := by
      intro hm
      rcases List.mem_cons.mp hm with h1 | h1
      · exact absurd h1.symm (by decide)
      · rcases List.mem_cons.mp h1 with h2 | h2
        · exact absurd h2.symm (by decide)
        · exact h p (List.mem_cons_self p (q :: qs)) h2
    have hstep : bulletJoin (p :: q :: qs) =
        ('•' :: ' ' :: p) ++ '\n' :: bulletJoin (q :: qs) := by
      rw [bulletJoin, joinWith, bulletJoin]
      simp
    rw [hstep, splitOnChar_append hp,
      splitOnChar_bulletJoin (q :: qs) (fun u hu => h u (List.mem_cons_of_mem p hu))
        (by simp)]
    simp

/-- As above, with the `"\n..."` overflow marker appended. -/
theorem splitOnChar_bulletJoin_dots :
    ∀ parts : List (List Char), (∀ p ∈ parts, '\n' ∉ p) → parts ≠ [] →
      splitOnChar '\n' (bulletJoin parts ++ '\n' :: '.' :: '.' :: ['.']) =
        parts.map (fun p => '•' :: ' ' :: p) ++ [['.', '.', '.']]
  | [], _, hne => absurd rfl hne
  | [p], h, _ => by
    have hp : '\n' ∉ '•' :: ' ' :: p := by
      intro hm
      rcases List.mem_cons.mp hm with h1 | h1
      · exact absurd h1.symm (by decide)
      · rcases List.mem_cons.mp h1 with h2 | h2
        · exact absurd h2.symm (by decide)
        · exact h p (List.mem_singleton.mpr rfl) h2
    rw [bulletJoin, joinWith, splitOnChar_append hp, splitOnChar_not_mem (by decide)]
    simp
  | p :: q :: qs, h, _ => by
    have hp : '\n' ∉ '•' :: ' ' :: p := by
      intro hm
      rcases List.mem_cons.mp hm with h1 | h1
      · exact absurd h1.symm (by decide)
      · rcases List.mem_cons.mp h1 with h2 | h2
        · exact absurd h2.symm (by decide)
        · exact h p (List.mem_cons_self p (q :: qs)) h2
    have hstep : bulletJoin (p :: q :: qs) ++ '\n' :: '.' :: '.' :: ['.'] =
        ('•' :: ' ' :: p) ++ '\n' :: (bulletJoin (q :: qs) ++ '\n' :: '.' :: '.' :: ['.']) := by
      rw [bulletJoin, joinWith, bulletJoin]
      simp
    rw [hstep, splitOnChar_append hp,
      splitOnChar_bulletJoin_dots (q :: qs)
        (fun u hu => h u (List.mem_cons_of_mem p hu)) (by simp)]
    simp

/-- `summarize_text` as the newline, the bulleted block of the first five
parts, and the conditional overflow marker. -/
theorem summarize_text_eq (text : List Char) :
    summarize_text text =
      '\n' :: (bulletJoin ((summarizeParts text).take 5) ++
        (if 5 < (summarizeParts text).length then '\n' :: '.' :: '.' :: ['.'] else [])) := by
  rw [summarize_text, bulletJoin]
  simp

/-- C2 (amended): for a hazard/safety value, the rendered text splits on
`';'`, keeps the segments that are non-blank before trimming, trims each of
surrounding spaces/`';'`/`','`, and renders a leading empty line (the text
starts with a newline), then one bulleted line per kept segment capped at
five, then a literal `...` line exactly when more than five segments were
kept: with 7 segments that is an empty line, 5 bulleted lines and `...`;
with 1–5 segments an empty line and that many bulleted lines, no marker. -/
theorem summarize_text_lines (text : List Char)
    (hnl : ∀ p ∈ summarizeParts text, '\n' ∉ p) :
    ((summarizeParts text).length = 7 →
      splitOnChar '\n' (summarize_text text) =
        [] :: ((summarizeParts text).take 5).map (fun p => '•' :: ' ' :: p) ++
          [['.', '.', '.']]) ∧
    (1 ≤ (summarizeParts text).length → (summarizeParts text).length ≤ 5 →
      splitOnChar '\n' (summarize_text text) =
        [] :: (summarizeParts text).map (fun p => '•' :: ' ' :: p)) := by
  have hcons : ∀ rest : List Char,
      splitOnChar '\n' ('\n' :: rest) = [] :: splitOnChar '\n' rest := by
    intro rest
    simp [splitOnChar]
  have htake : ∀ p ∈ (summarizeParts text).take 5, '\n' ∉ p :=
    fun p hp => hnl p (List.take_subset 5 _ hp)
  constructor
  · intro h7
    rw [summarize_text_eq, if_pos (by omega), hcons,
      splitOnChar_bulletJoin_dots ((summarizeParts text).take 5) htake
        (List.ne_nil_of_length_pos (by rw [List.length_take, h7]; omega))]
    simp
  · intro h1 h5
    rw [summarize_text_eq, if_neg (by omega), List.append_nil, hcons,
      List.take_of_length_le h5,
      splitOnChar_bulletJoin (summarizeParts text) hnl
        (List.ne_nil_of_length_pos (by omega))]

/-- C2 (counterexample): on `"a;b;c;d;e;f;g"` (7 segments) the rendered
text has 7 lines, not 6 — a leading empty line precedes the 5 bulleted
lines and the `...` marker. -/
theorem summarize_text_leading_blank_line :
    splitOnChar '\n' (summarize_text ("a;b;c;d;e;f;g".data)) =
      [[], '•' :: ' ' :: ['a'], '•' :: ' ' :: ['b'], '•' :: ' ' :: ['c'],
       '•' :: ' ' :: ['d'], '•' :: ' ' :: ['e'], ['.', '.', '.']] ∧
    (splitOnChar '\n' (summarize_text ("a;b;c;d;e;f;g".data))).length = 7 := by
  constructor <;> decide

/-- C2 (witness): the amended statement evaluated on `"a;b;c;d;e;f;g"`. -/
theorem summarize_text_lines_check :
    ((∀ p ∈ summarizeParts ("a;b;c;d;e;f;g".data), '\n' ∉ p) ∧
      (summarizeParts ("a;b;c;d;e;f;g".data)).length = 7) ∧
    splitOnChar '\n' (summarize_text ("a;b;c;d;e;f;g".data)) =
      [] :: ((summarizeParts ("a;b;c;d;e;f;g".data)).take 5).map
          (fun p => '•' :: ' ' :: p) ++ [['.', '.', '.']] :=
  ⟨⟨by decide, by decide⟩,
    (summarize_text_lines ("a;b;c;d;e;f;g".data) (by decide)).1 (by decide)⟩

/-- C3: the 15-token hard wrap neither drops nor duplicates nor reorders
tokens: re-splitting the wrapped text on whitespace gives exactly the
input's whitespace-split token sequence, also when the wrap is applied
again to the already-wrapped text, and likewise for the length-guarded
form of the wrap. -/
theorem wrap15_token_faithful (s : List Char) :
    pySplit (wrap15 s) = pySplit s ∧
    pySplit (wrap15 (wrap15 s)) = pySplit s ∧
    pySplit (condWrap15 s) = pySplit s := by
  refine ⟨pySplit_wrap15 s, ?_, ?_⟩
  · rw [pySplit_wrap15, pySplit_wrap15]
  · unfold condWrap15
    split
    · exact pySplit_wrap15 s
    · rfl

/-! ## Left-join characterization -/

/-- With pairwise-distinct keys, filtering by a key finds at most one row. -/
theorem filter_key_eq_find :
    ∀ rows : List (Int × Row), (rows.map Prod.fst).Nodup → ∀ k : Int,
      rows.filter (fun pr => pr.1 = k) =
        (match rows.find? (fun pr => pr.1 = k) with
         | some pr => [pr]
         | none => [])
  | [], _, k => by simp
  | p :: rest, hnd, k => by
    rw [List.map_cons, List.nodup_cons] at hnd
    obtain ⟨hnotin, hndr⟩ := hnd
    by_cases hpk : p.1 = k
    · have hrest : rest.filter (fun pr => pr.1 = k) = [] := by
        refine List.filter_eq_nil_iff.mpr ?_
        intro pr hpr
        simp only [decide_eq_true_eq]
        intro he
        exact hnotin (hpk ▸ he ▸ List.mem_map_of_mem Prod.fst hpr)
      simp [List.filter_cons, List.find?_cons, hpk, hrest]
    · have hd : (decide (p.1 = k)) = false := decide_eq_false hpk
      rw [List.filter_cons, List.find?_cons, hd]
      simpa using filter_key_eq_find rest hndr k

/-- The left join, one output row per left row: properties fields from the
unique matching properties row, NaN-filled when no row matches. -/
theorem leftJoinRows_eq (props : Table)
    (hnd : (props.rows.map Prod.fst).Nodup) :
    ∀ rows : List (Int × Row),
      leftJoinRows props rows = rows.map (fun kr =>
        (kr.1, kr.2 ++
          (match props.rows.find? (fun pr => pr.1 = kr.1) with
           | some pr => pr.2
           | none => nanRow props.propCols)))
  | [] => by simp [leftJoinRows]
  | kr :: rest => by
    have hm : matchesFor props kr.1 =
        (match props.rows.find? (fun pr => pr.1 = kr.1) with
         | some pr => [pr]
         | none => []) := filter_key_eq_find props.rows hnd kr.1
    rw [leftJoinRows, leftJoinRows_eq props hnd rest, List.map_cons]
    cases hf : props.rows.find? (fun pr => pr.1 = kr.1) with
    | none => rw [hf] at hm; rw [hm]; simp
    | some pr => rw [hf] at hm; rw [hm]; simp

/-- C1: when the properties table has at most one row per compound id, the
merge is a left join keyed core-side: exactly one merged row per core row,
in core order (so core rows are never duplicated and unmatched properties
ids produce no row), with the properties fields taken from the matching
properties row when it exists and NaN (missing) otherwise. -/
theorem leftJoin_core_left (core props : Table)
    (hnd : (props.rows.map Prod.fst).Nodup) :
    leftJoin core props = core.rows.map (fun kr =>
      (kr.1, kr.2 ++
        (match props.rows.find? (fun pr => pr.1 = kr.1) with
         | some pr => pr.2
         | none => nanRow props.propCols))) ∧
    (leftJoin core props).map Prod.fst = core.rows.map Prod.fst := by
  have h := leftJoinRows_eq props hnd core.rows
  refine ⟨h, ?_⟩
  rw [leftJoin, h, List.map_map]
  simp

/-- C1 (witness): core ids {1,2,3} and properties ids {2,4} give exactly
three merged rows in core order — rows 1 and 3 with NaN properties, row 2
populated, and no row for id 4. -/
theorem leftJoin_core_left_check :
    (propsC1.rows.map Prod.fst).Nodup ∧
    (leftJoin coreC1 propsC1 = coreC1.rows.map (fun kr =>
      (kr.1, kr.2 ++
        (match propsC1.rows.find? (fun pr => pr.1 = kr.1) with
         | some pr => pr.2
         | none => nanRow propsC1.propCols))) ∧
     (leftJoin coreC1 propsC1).map Prod.fst = coreC1.rows.map Prod.fst) ∧
    leftJoin coreC1 propsC1 =
      [(1, [("name".data, PyVal.vStr ['A']), ("Corrosivity".data, PyVal.vNaN)]),
       (2, [("name".data, PyVal.vStr ['B']), ("Corrosivity".data, PyVal.vStr ['m'])]),
       (3, [("name".data, PyVal.vStr ['C']), ("Corrosivity".data, PyVal.vNaN)])] :=
  ⟨by decide, leftJoin_core_left coreC1 propsC1 (by decide), by decide⟩

/-! ## Computed columns with unregistered functions (C4) -/

/-- C4 (amended): a `computed` column whose function name is not the one
registered routine appends no cell at all — no error is raised, but the
produced row is one cell short and every subsequent column's value shifts
one cell to the left. -/
theorem unregistered_function_drops_cell (row : Row) (f : List Char)
    (hf : f ≠ ghsName) (rest : List Column) :
    renderColumn row { type := ColType.tcomputed, function := f } = [] ∧
    renderRow ({ type := ColType.tcomputed, function := f } :: rest) row =
      renderRow rest row := by
  have h : renderColumn row { type := ColType.tcomputed, function := f } = [] := by
    rw [renderColumn]
    exact if_neg hf
  exact ⟨h, by rw [renderRow, h, List.nil_append]⟩

/-- C4 (counterexample): with a schema of an unregistered `computed` column
followed by a `text` column, the rendered row has a single cell — the text
column's value lands in the computed column's position instead of a
two-cell row with an empty first cell. -/
theorem unregistered_function_shifts_row :
    renderRow [{ type := ColType.tcomputed, function := 'u' :: ['f'] },
               { type := ColType.ttext, field := ['n'] }]
        [(['n'], PyVal.vStr ['X'])] = [PyVal.vStr ['X']] ∧
    (renderRow [{ type := ColType.tcomputed, function := 'u' :: ['f'] },
                { type := ColType.ttext, field := ['n'] }]
        [(['n'], PyVal.vStr ['X'])]).length = 1 := by
  constructor <;> decide

/-- C4 (witness): the amended statement at a concrete unregistered name. -/
theorem unregistered_function_drops_cell_check :
    ('u' :: ['f'] : List Char) ≠ ghsName ∧
    (renderColumn [(['n'], PyVal.vStr ['X'])]
        { type := ColType.tcomputed, function := 'u' :: ['f'] } = [] ∧
     renderRow ({ type := ColType.tcomputed, function := 'u' :: ['f'] } ::
          [{ type := ColType.ttext, field := ['n'] }]) [(['n'], PyVal.vStr ['X'])] =
        renderRow [{ type := ColType.ttext, field := ['n'] }] [(['n'], PyVal.vStr ['X'])]) :=
  ⟨by decide,
    unregistered_function_drops_cell [(['n'], PyVal.vStr ['X'])] ('u' :: ['f'])
      (by decide) [{ type := ColType.ttext, field := ['n'] }]⟩

/-! ## The 40-token truncation (C5) and hazard precedence (C6) -/

/-- C5 (amended): for a composite *component* with `summarize` set, a
non-hazard field name and a value of more than 40 tokens, the value before
the 15-token wrap is the first 30 tokens space-joined plus `...`; a plain
`text` column with `summarize` set instead gets semicolon summarization
(`summarize_text`), never this truncation. -/
theorem component_truncation (field v : List Char)
    (hhz : isHazardField field = false) (hlen : 40 < (pySplit v).length) :
    componentTransform field true v =
      joinWith [' '] ((pySplit v).take 30) ++ '.' :: '.' :: ['.'] ∧
    ∀ (row : Row) (col : Column), col.type = ColType.ttext →
      col.summarize = true →
      rowGet row col.field (PyVal.vStr []) = PyVal.vStr v →
      renderColumn row col = [PyVal.vStr (summarize_text v)] := by
  constructor
  · rw [componentTransform, if_neg (by simp [hhz]), if_pos rfl, if_pos hlen]
  · intro row col htype hsu hval
    rw [renderColumn, htype]
    simp only [hval, hsu, if_true]

/-- C5 (counterexample): a `text` column with `summarize` set and a
41-token non-hazard value renders via `summarize_text` — the whole value
behind a bullet on a fresh line — not as the first 30 tokens plus `...`. -/
theorem text_column_summarize_not_truncation :
    renderColumn [(['x'], PyVal.vStr (joinWith [' '] (List.replicate 41 ['a'])))]
        { type := ColType.ttext, field := ['x'], summarize := true } =
      [PyVal.vStr ('\n' :: '•' :: ' ' :: joinWith [' '] (List.replicate 41 ['a']))] ∧
    40 < (pySplit (joinWith [' '] (List.replicate 41 ['a']))).length ∧
    '\n' :: '•' :: ' ' :: joinWith [' '] (List.replicate 41 ['a']) ≠
      joinWith [' '] ((pySplit (joinWith [' '] (List.replicate 41 ['a']))).take 30) ++
        '.' :: '.' :: ['.'] := by
  refine ⟨by decide, by decide, by decide⟩

/-- C5 (witness): the amended statement at a concrete 41-token value. -/
theorem component_truncation_check :
    (isHazardField ['x'] = false ∧
      40 < (pySplit (joinWith [' '] (List.replicate 41 ['a']))).length) ∧
    componentTransform ['x'] true (joinWith [' '] (List.replicate 41 ['a'])) =
      joinWith [' '] ((pySplit (joinWith [' '] (List.replicate 41 ['a']))).take 30) ++
        '.' :: '.' :: ['.'] :=
  ⟨⟨by decide, by decide⟩,
    (component_truncation ['x'] (joinWith [' '] (List.replicate 41 ['a']))
      (by decide) (by decide)).1⟩

/-- C6 (amended): only composite text *components* check the field name:
there, a hazard/safety field (case-insensitive substring) always gets
`summarize_text`, taking precedence over the `summarize` truncation; a
plain `text` column never checks its field name, so a hazard-named text
column without `summarize` is rendered without hazard summarization. -/
theorem component_hazard_precedence (field : List Char) (su : Bool) (v : List Char)
    (hhz : isHazardField field = true) :
    componentTransform field su v = summarize_text v ∧
    ∀ (row : Row) (pfx : List Char),
      rowGet row field (PyVal.vStr []) = PyVal.vStr v →
      renderComponent row ⟨CompKind.ctext, field, pfx, su⟩ =
        some (pfx ++ condWrap15 (summarize_text v)) := by
  have h : componentTransform field su v = summarize_text v := by
    rw [componentTransform, if_pos hhz]
  refine ⟨h, ?_⟩
  intro row pfx hval
  rw [renderComponent]
  simp only [hval, h]

/-- C6 (counterexample): a `text` column on the field `"Hazard"`, without
`summarize`, renders the raw value `"a;b"` unchanged — hazard
summarization is not applied to text columns. -/
theorem text_column_no_hazard_check :
    isHazardField ("Hazard".data) = true ∧
    renderColumn [("Hazard".data, PyVal.vStr ('a' :: ';' :: ['b']))]
        { type := ColType.ttext, field := "Hazard".data } =
      [PyVal.vStr ('a' :: ';' :: ['b'])] ∧
    ('a' :: ';' :: ['b']) ≠ summarize_text ('a' :: ';' :: ['b']) := by
  refine ⟨by decide, by decide, by decide⟩

/-- C6 (witness): the amended statement at a hazard-named component with
`summarize` also set, showing the precedence. -/
theorem component_hazard_precedence_check :
    isHazardField ("Hazards".data) = true ∧
    (componentTransform ("Hazards".data) true ('a' :: ';' :: ['b']) =
        summarize_text ('a' :: ';' :: ['b']) ∧
      ∀ (row : Row) (pfx : List Char),
        rowGet row ("Hazards".data) (PyVal.vStr []) =
          PyVal.vStr ('a' :: ';' :: ['b']) →
        renderComponent row ⟨CompKind.ctext, "Hazards".data, pfx, true⟩ =
          some (pfx ++ condWrap15 (summarize_text ('a' :: ';' :: ['b'])))) :=
  ⟨by decide,
    component_hazard_precedence ("Hazards".data) true ('a' :: ';' :: ['b']) (by decide)⟩

/-! ## Pass 2: missing images (C7) and the empty-lines crash (C10) -/

/-- C7 (amended): when a composite column's base image path is absent
(`None`), an empty string, or a string naming no existing file, pass 2 is
a non-fatal no-op for that cell: no image is anchored and the row height
and column width stay exactly at their pre-pass-2 values (pass 2 never
rewrites the pass-1 cell text, so the cell keeps it).  A present-but-NaN
path — the merge's sentinel for a missing properties value — is excluded:
it is truthy and reaches `os.path.exists`, which raises an uncaught
`TypeError`. -/
theorem pass2_missing_image_skips (fs : List Char → Bool)
    (textH textW imgW imgH : List Char → ℚ) (row : Row) (col : Column)
    (dims : SheetDims)
    (hmiss : resolvableImage fs row col.components = false)
    (hnan : pass2ImagePath row col.components ≠ some PyVal.vNaN) :
    pass2Cell fs textH textW imgW imgH row col dims = some dims := by
  rw [pass2Cell]
  by_cases htype : col.type = ColType.tcomposite
  · rw [if_pos htype]
    cases hp : pass2ImagePath row col.components with
    | none => rfl
    | some v =>
      cases v with
      | vNaN => exact absurd hp hnan
      | vStr p =>
        simp only [resolvableImage, hp] at hmiss
        simp [hmiss]
  · rw [if_neg htype]

/-- C7 (counterexample): a composite column whose image-path value is the
NaN sentinel (missing after the left join): the guard passes the truthy
NaN to `os.path.exists`, which raises an uncaught `TypeError`, so the
pass-2 step fails instead of skipping — not a "non-fatal skip, no error
raised". -/
theorem pass2_nan_image_path_crashes :
    pass2ImagePath rowC7 colC10.components = some PyVal.vNaN ∧
    pass2Cell (fun _ => false) (fun _ => 10) (fun _ => 10) (fun _ => 100)
        (fun _ => 80) rowC7 colC10 ⟨some 5, some 20, 2⟩ = none := by
  constructor <;> decide

/-- C7 (witness): a nonexistent string path on a concrete composite column
leaves concrete nontrivial dimensions untouched. -/
theorem pass2_missing_image_skips_check :
    (resolvableImage (fun _ => false) rowC10 colC10.components = false ∧
      pass2ImagePath rowC10 colC10.components ≠ some PyVal.vNaN) ∧
    pass2Cell (fun _ => false) (fun _ => 10) (fun _ => 10) (fun _ => 100)
        (fun _ => 80) rowC10 colC10 ⟨some 5, some 20, 2⟩ =
      some ⟨some 5, some 20, 2⟩ :=
  ⟨⟨by decide, by decide⟩,
    pass2_missing_image_skips (fun _ => false) (fun _ => 10) (fun _ => 10)
      (fun _ => 100) (fun _ => 80) rowC10 colC10 ⟨some 5, some 20, 2⟩
      (by decide) (by decide)⟩

/-- C10: when a composite column's base image resolves but every text
component's value is missing (NaN), the pass-2 text collection is empty
and `make_composite_image` — which takes the maximum text length over an
empty sequence — fails instead of returning an image; nothing in the
render path guards against the empty list, so the cell's pass-2 step
fails. -/
theorem composite_empty_lines_crash (fs : List Char → Bool)
    (textH textW imgW imgH : List Char → ℚ) (row : Row) (col : Column)
    (dims : SheetDims)
    (htype : col.type = ColType.tcomposite)
    (hres : resolvableImage fs row col.components = true)
    (hnan : ∀ c ∈ col.components, c.kind = CompKind.ctext →
      rowGet row c.field (PyVal.vStr []) = PyVal.vNaN) :
    pass2TextLines row col.components = [] ∧
    (∀ (tH tW : List Char → ℚ) (bW bH : ℚ) (pos : List Char),
      make_composite_image tH tW bW bH [] pos = none) ∧
    pass2Cell fs textH textW imgW imgH row col dims = none := by
  have hlines : pass2TextLines row col.components = [] := by
    rw [pass2TextLines, List.filterMap_eq_nil_iff]
    intro c hc
    cases hk : c.kind with
    | cimage => simp [hk]
    | ctext => simp [hk, hnan c hc hk]
  refine ⟨hlines, fun tH tW bW bH pos => rfl, ?_⟩
  rw [pass2Cell, if_pos htype]
  cases hp : pass2ImagePath row col.components with
  | none => simp [resolvableImage, hp] at hres
  | some v =>
    cases v with
    | vNaN => simp [resolvableImage, hp] at hres
    | vStr p =>
      have hguard : (!p.isEmpty && fs p) = true := by
        simpa only [resolvableImage, hp] using hres
      simp [hguard, hlines, make_composite_image]

/-- C10 (witness): the theorem evaluated on the concrete NaN-text column
with an existing image. -/
theorem composite_empty_lines_crash_check :
    (resolvableImage (fun _ => true) rowC10 colC10.components = true ∧
      ∀ c ∈ colC10.components, c.kind = CompKind.ctext →
        rowGet rowC10 c.field (PyVal.vStr []) = PyVal.vNaN) ∧
    pass2TextLines rowC10 colC10.components = [] ∧
    pass2Cell (fun _ => true) (fun _ => 10) (fun _ => 10) (fun _ => 100)
        (fun _ => 80) rowC10 colC10 ⟨none, none, 0⟩ = none :=
  ⟨⟨by decide, by decide⟩,
    (composite_empty_lines_crash (fun _ => true) (fun _ => 10) (fun _ => 10)
      (fun _ => 100) (fun _ => 80) rowC10 colC10 ⟨none, none, 0⟩ rfl
      (by decide) (by decide)).1,
    (composite_empty_lines_crash (fun _ => true) (fun _ => 10) (fun _ => 10)
      (fun _ => 100) (fun _ => 80) rowC10 colC10 ⟨none, none, 0⟩ rfl
      (by decide) (by decide)).2.2⟩

/-! ## The computed hazards summary (C8) -/

/-- C8: `generate_hazards_summary` newline-joins one `"<Field>: <value>"`
line per present, non-blank hazard field in the fixed field order,
re-wrapping at 15-token lines only when the joined text exceeds 40
whitespace tokens (and even then the token sequence is preserved); on the
scenario schema and tables the merged row renders as the two-cell row
`"Acetone"`, `"Corrosivity: Mild"`. -/
theorem generate_hazards_summary_spec (row : Row) :
    pySplit (generate_hazards_summary row) =
      pySplit (joinWith ['\n'] (hazardParts row)) ∧
    ((pySplit (joinWith ['\n'] (hazardParts row))).length ≤ 40 →
      generate_hazards_summary row = joinWith ['\n'] (hazardParts row)) ∧
    leftJoin coreC8 propsC8 =
      [(1, [("name".data, PyVal.vStr "Acetone".data),
            ("Corrosivity".data, PyVal.vStr "Mild".data)])] ∧
    renderRow colsC8
        [("name".data, PyVal.vStr "Acetone".data),
         ("Corrosivity".data, PyVal.vStr "Mild".data)] =
      [PyVal.vStr "Acetone".data, PyVal.vStr ("Corrosivity: Mild".data)] := by
  refine ⟨?_, ?_, by decide, by decide⟩
  · rw [generate_hazards_summary]
    split
    · exact pySplit_wrap15 _
    · rfl
  · intro hle
    rw [generate_hazards_summary, if_neg (by omega)]

/-- C8 (witness): on the scenario's merged row the joined text is short,
so it is returned without re-wrapping. -/
theorem generate_hazards_summary_spec_check :
    (pySplit (joinWith ['\n']
        (hazardParts [("Corrosivity".data, PyVal.vStr "Mild".data)]))).length ≤ 40 ∧
    generate_hazards_summary [("Corrosivity".data, PyVal.vStr "Mild".data)] =
      joinWith ['\n'] (hazardParts [("Corrosivity".data, PyVal.vStr "Mild".data)]) :=
  ⟨by decide,
    (generate_hazards_summary_spec
      [("Corrosivity".data, PyVal.vStr "Mild".data)]).2.1 (by decide)⟩

/-! ## Pass-3 column widths (C9) -/

/-- C9 (amended): the pass-3 column width is the larger of the fixed
minimum 10, the column's longest rendered cell's *total text length* (line
breaks included, not its longest line) scaled as `len / 1.5 + 2`, and the
pass-2 width, capped at the fixed maximum 70 — in particular it never
exceeds 70.  (Pass-2 widths are always ≥ 10, the hypothesis here.) -/
theorem pass3_width_formula (p2 : Option ℚ) (cells : List (List Char))
    (hp2 : ∀ q, p2 = some q → 10 ≤ q) :
    pass3ColWidth p2 cells =
      min (max (max 10 ((pass3MaxLength cells : ℚ) / 1.5 + 2)) (p2.getD 10)) 70 ∧
    pass3ColWidth p2 cells ≤ 70 := by
  have h10 : (10 : ℚ) ≤ p2.getD 10 := by
    cases hp : p2 with
    | none => simp
    | some q => simpa using hp2 q hp
  constructor
  · rw [pass3ColWidth]
    congr 1
    calc max (p2.getD 10) ((pass3MaxLength cells : ℚ) / 1.5 + 2)
        = max ((pass3MaxLength cells : ℚ) / 1.5 + 2) (p2.getD 10) := max_comm _ _
      _ = max 10 (max ((pass3MaxLength cells : ℚ) / 1.5 + 2) (p2.getD 10)) :=
          (max_eq_right (le_trans h10 (le_max_right _ _))).symm
      _ = max (max 10 ((pass3MaxLength cells : ℚ) / 1.5 + 2)) (p2.getD 10) :=
          (max_assoc _ _ _).symm
  · exact min_le_right _ _

/-- C9 (counterexample): a cell of two 20-character lines: the code sizes
the column from the 41-character total (width 88/3), while sizing from the
longest line (20 characters) would give 46/3. -/
theorem pass3_width_counterexample :
    pass3ColWidth none [List.replicate 20 'a' ++ '\n' :: List.replicate 20 'a'] =
      88 / 3 ∧
    claimColWidth none [List.replicate 20 'a' ++ '\n' :: List.replicate 20 'a'] =
      46 / 3 ∧
    pass3ColWidth none [List.replicate 20 'a' ++ '\n' :: List.replicate 20 'a'] ≠
      claimColWidth none [List.replicate 20 'a' ++ '\n' :: List.replicate 20 'a'] := by
  have hm : pass3MaxLength [List.replicate 20 'a' ++ '\n' :: List.replicate 20 'a'] = 41 := by
    decide
  have hl : longestLineLen [List.replicate 20 'a' ++ '\n' :: List.replicate 20 'a'] = 20 := by
    decide
  have e1 : pass3ColWidth none [List.replicate 20 'a' ++ '\n' :: List.replicate 20 'a'] =
      88 / 3 := by
    rw [pass3ColWidth, hm, Option.getD_none]
    rw [show (((41 : ℕ) : ℚ) / 1.5 + 2) = 88 / 3 by norm_num]
    rw [show max (10 : ℚ) (88 / 3) = 88 / 3 from max_eq_right (by norm_num)]
    exact min_eq_left (by norm_num)
  have e2 : claimColWidth none [List.replicate 20 'a' ++ '\n' :: List.replicate 20 'a'] =
      46 / 3 := by
    rw [claimColWidth, hl, Option.getD_none]
    rw [show (((20 : ℕ) : ℚ) / 1.5 + 2) = 46 / 3 by norm_num]
    rw [show max (10 : ℚ) (46 / 3) = 46 / 3 from max_eq_right (by norm_num)]
    rw [show max ((46 : ℚ) / 3) 10 = 46 / 3 from max_eq_left (by norm_num)]
    exact min_eq_left (by norm_num)
  refine ⟨e1, e2, ?_⟩
  rw [e1, e2]
  norm_num

/-- C9 (witness): the amended formula and the cap evaluated at a concrete
column. -/
theorem pass3_width_formula_check :
    (∀ q : ℚ, (none : Option ℚ) = some q → 10 ≤ q) ∧
    (pass3ColWidth none [['a']] =
        min (max (max 10 ((pass3MaxLength [['a']] : ℚ) / 1.5 + 2))
          ((none : Option ℚ).getD 10)) 70 ∧
      pass3ColWidth none [['a']] ≤ 70) :=
  ⟨fun _ h => Option.noConfusion h,
    pass3_width_formula none [['a']] (fun _ h => Option.noConfusion h)⟩

end ReagentTable
